import Mathlib

/-!
Shallow embedding of the frame-pipeline servers of `auto_check_yolo`
(`src/backend/hq_stream_server.py`, `src/backend/stream_server.py`,
`src/backend/udp_server.py`, `src/backend/server.py`, and the
detection-cache logic shared by `src/frontend/client.py` and
`all_in_one/detector.py`), together with theorems settling the spec
claims about them.

Frames are opaque payloads, modelled as natural numbers.  External
collaborators (YOLO model invocation, cv2 drawing, JPEG encoding,
`json.dumps`) are modelled at the data level: a model invocation is an
outcome value (rows / exception / model-is-None), drawing is recorded as
a constructor pairing the frame with its detection list, and
serialisation length is an abstract parameter where only the length
matters.  Some states carry ghost instrumentation counters (suffix `G`)
that mirror quantities the Python code observes only implicitly (number
of dequeues, error iterations); they never influence behaviour.
-/

set_option autoImplicit false

abbrev Frame := Nat

/-- One detection box as produced by the servers: integer pixel coords,
class label string, rational confidence. -/
structure Detection where
  x : Int
  y : Int
  w : Int
  h : Int
  cls : String
  conf : ℚ
  deriving DecidableEq, Repr

/-- One raw output row of a model invocation, `(x1, y1, x2, y2, conf, cls)`
as in `r0.boxes.data`. -/
structure ModelRow where
  x1 : Int
  y1 : Int
  x2 : Int
  y2 : Int
  conf : ℚ
  cls : Nat
  deriving DecidableEq, Repr

/-- Outcome of one Detector invocation inside a worker loop iteration:
the model is `None`, the call raises, or it returns rows. -/
inductive DetOutcome where
  | noModel
  | raises (msg : String)
  | ok (rows : List ModelRow)
  deriving DecidableEq, Repr

/-- A processed output frame: either the unannotated copy of the input
frame (model `None`, or the stream server's error path which emits the
raw frame), or the copy with the given detection rows drawn onto it
(the cv2 drawing itself is external; we record frame and rows). -/
inductive OutFrame where
  | raw (f : Frame)
  | drawn (f : Frame) (rows : List ModelRow)
  deriving DecidableEq, Repr

/-! ## Bounded queues

`queue.Queue(maxsize=n)` with `put_nowait` / non-blocking get, as used by
`HighQualityFrameProcessor`, and `collections.deque(maxlen=n)` as used by
`VideoStreamBuffer`. -/

/-- Embedding of Python `queue.Queue(maxsize=cap)`; `items` is ordered
oldest first. -/
structure PyQueue (α : Type) where
  cap : Nat
  items : List α
  deriving DecidableEq, Repr

/-- Python `Queue.put_nowait`: appends when not full and reports success;
raises `queue.Full` (reported as `false`) when full, leaving the queue
unchanged. -/
def PyQueue.putNowait {α : Type} (q : PyQueue α) (a : α) : PyQueue α × Bool :=
  if q.items.length < q.cap then ({ q with items := q.items ++ [a] }, true)
  else (q, false)

/-- Python `Queue.get(timeout=...)` in a single-threaded schedule: pops the
oldest element, or reports `none` (the `Empty` timeout) when empty. -/
def PyQueue.getTimeout {α : Type} (q : PyQueue α) : PyQueue α × Option α :=
  match q.items with
  | [] => (q, none)
  | a :: rest => ({ q with items := rest }, some a)

/-- Embedding of Python `collections.deque(maxlen=maxlen)`; `items` is
ordered oldest first. -/
structure BDeque (α : Type) where
  maxlen : Nat
  items : List α
  deriving DecidableEq, Repr

/-- Python `deque.append` on a deque with `maxlen`: appends on the right
and silently discards elements from the left so that at most `maxlen`
remain. -/
def BDeque.append {α : Type} (q : BDeque α) (a : α) : BDeque α :=
  let l := q.items ++ [a]
  { q with items := l.drop (l.length - q.maxlen) }

/-- Python `deque.popleft` guarded by a non-emptiness check (the servers
always test `len(...) > 0` first): pops the oldest element if any. -/
def BDeque.popleft {α : Type} (q : BDeque α) : BDeque α × Option α :=
  match q.items with
  | [] => (q, none)
  | a :: rest => ({ q with items := rest }, some a)

/-! ## High-quality frame processor (`hq_stream_server.py`) -/

namespace HQ

/-- The `stats` dict of `HighQualityFrameProcessor`. -/
structure Stats where
  received : Nat
  processed : Nat
  sent : Nat
  dropped : Nat
  deriving DecidableEq, Repr

/-- State of `HighQualityFrameProcessor` (lines 96-106).  The ghost
fields `dequeuedG`, `outDroppedG` and `raisedG` count, respectively,
frames successfully taken off the input queue by the worker, worker
iterations whose output `put_nowait` overflowed, and worker iterations
aborted by a Detector exception; they mirror the control flow and never
affect it. -/
structure Processor where
  input_queue : PyQueue Frame
  output_queue : PyQueue OutFrame
  stats : Stats
  dequeuedG : Nat
  outDroppedG : Nat
  raisedG : Nat
  deriving DecidableEq, Repr

/-- Constructor `HighQualityFrameProcessor.__init__(buffer_size)` (default 90 at the
only construction site). -/
def Processor.init (buffer_size : Nat) : Processor :=
  { input_queue := { cap := buffer_size, items := [] }
    output_queue := { cap := buffer_size, items := [] }
    stats := { received := 0, processed := 0, sent := 0, dropped := 0 }
    dequeuedG := 0, outDroppedG := 0, raisedG := 0 }

/-- Method `HighQualityFrameProcessor.add_frame` (lines 108-116): `put_nowait`
into the input queue; on success increment `received` under the lock,
on `queue.Full` increment `dropped` under the lock. -/
def Processor.add_frame (p : Processor) (f : Frame) : Processor :=
  match p.input_queue.putNowait f with
  | (q, true) =>
      { p with input_queue := q
               stats := { p.stats with received := p.stats.received + 1 } }
  | (q, false) =>
      { p with input_queue := q
               stats := { p.stats with dropped := p.stats.dropped + 1 } }

/-- Method `HighQualityFrameProcessor.get_frame` (lines 118-123): non-blocking
pop of the oldest processed frame, `none` on timeout. -/
def Processor.get_frame (p : Processor) : Processor × Option OutFrame :=
  match p.output_queue.getTimeout with
  | (q, r) => ({ p with output_queue := q }, r)

/-- Body of one iteration of `process_worker` (lines 130-188) after the
frame has been dequeued, written as the `try` block: a Detector
exception escapes as `Except.error` and is handled by `workerIter`.
With the model present and returning rows the annotated copy is pushed;
with the model `None` the unannotated copy is pushed; either way a full
output queue increments `dropped` instead of `processed`. -/
def workerBody (p : Processor) (f : Frame) (o : DetOutcome) :
    Except String Processor :=
  match o with
  | .raises msg => .error msg
  | .noModel =>
      match p.output_queue.putNowait (.raw f) with
      | (q, true) =>
          .ok { p with output_queue := q
                       stats := { p.stats with processed := p.stats.processed + 1 } }
      | (q, false) =>
          .ok { p with output_queue := q
                       stats := { p.stats with dropped := p.stats.dropped + 1 }
                       outDroppedG := p.outDroppedG + 1 }
  | .ok rows =>
      match p.output_queue.putNowait (.drawn f rows) with
      | (q, true) =>
          .ok { p with output_queue := q
                       stats := { p.stats with processed := p.stats.processed + 1 } }
      | (q, false) =>
          .ok { p with output_queue := q
                       stats := { p.stats with dropped := p.stats.dropped + 1 }
                       outDroppedG := p.outDroppedG + 1 }

/-- One full iteration of the `while self.running` loop of
`process_worker`: dequeue with timeout (an empty queue raises `Empty`,
caught by the bare `except` which just sleeps), then run the body; any
exception from the body is caught by the same bare `except` (line 187),
so the iteration always returns a state and the loop continues. -/
def workerIter (p : Processor) (o : DetOutcome) : Processor :=
  match p.input_queue.getTimeout with
  | (_, none) => p
  | (q, some f) =>
      match workerBody { p with input_queue := q, dequeuedG := p.dequeuedG + 1 } f o with
      | .ok p2 => p2
      | .error _ =>
          { p with input_queue := q, dequeuedG := p.dequeuedG + 1
                   raisedG := p.raisedG + 1 }

/-- One iteration of the `websocket_stream` send loop (lines 252-272) by
a session whose local `frame_count` is `c`, up to but not including the
`asyncio.sleep` call: pop a processed frame; if one is available, send
it and assign `stats['sent'] = c + 1` (an unlocked assignment of the
session-local counter, not an increment). -/
def wsIter (p : Processor) (c : Nat) : Processor × Nat :=
  match p.get_frame with
  | (p1, some _) =>
      ({ p1 with stats := { p1.stats with sent := c + 1 } }, c + 1)
  | (p1, none) => (p1, c)

/-- Events that mutate the shared processor state: a producer submission,
one worker iteration with the given Detector outcome, or one websocket
send-loop iteration by a session with local counter `c`. -/
inductive Event where
  | add (f : Frame)
  | work (o : DetOutcome)
  | ws (c : Nat)
  deriving DecidableEq, Repr

/-- Apply one event. -/
def stepEvent (p : Processor) (e : Event) : Processor :=
  match e with
  | .add f => p.add_frame f
  | .work o => workerIter p o
  | .ws c => (wsIter p c).1

/-- Run a sequence of events. -/
def runEvents (p : Processor) (evs : List Event) : Processor :=
  evs.foldl stepEvent p

end HQ

/-! ## Video stream buffer (`stream_server.py`) -/

namespace Stream

/-- State of `VideoStreamBuffer` (lines 85-94).  The ghost field
`processedG` mirrors the local `processed_count` of `process_frames`
(incremented only on the success path, line 168); `errorsG` counts
iterations that took the `except` path. -/
structure Buffer where
  input_queue : BDeque Frame
  output_queue : BDeque OutFrame
  frame_count : Nat
  last_frame : Option OutFrame
  processedG : Nat
  errorsG : Nat
  deriving DecidableEq, Repr

/-- Constructor `VideoStreamBuffer.__init__(max_size)` (default 60 at the only
construction site). -/
def Buffer.init (max_size : Nat) : Buffer :=
  { input_queue := { maxlen := max_size, items := [] }
    output_queue := { maxlen := max_size, items := [] }
    frame_count := 0, last_frame := none, processedG := 0, errorsG := 0 }

/-- Method `VideoStreamBuffer.add_frame` (lines 96-100): unconditional
`deque.append` (a full deque discards its oldest element) and
`frame_count += 1`, under the lock. -/
def Buffer.add_frame (b : Buffer) (f : Frame) : Buffer :=
  { b with input_queue := b.input_queue.append f
           frame_count := b.frame_count + 1 }

/-- Method `VideoStreamBuffer.get_processed_frame` (lines 102-108): pop the
oldest output frame if any, otherwise return `last_frame` (possibly
`None`). -/
def Buffer.get_processed_frame (b : Buffer) : Buffer × Option OutFrame :=
  match b.output_queue.popleft with
  | (q, some f) => ({ b with output_queue := q }, some f)
  | (_, none) => (b, b.last_frame)

/-- The `try` block of one `process_frames` iteration (lines 126-170)
after the frame has been dequeued: a Detector exception escapes as
`Except.error`; otherwise the annotated copy (or the unannotated copy
when the model is `None`) is appended to the output deque and becomes
`last_frame`, and `processed_count` is incremented. -/
def procBody (b : Buffer) (f : Frame) (o : DetOutcome) :
    Except String Buffer :=
  match o with
  | .raises msg => .error msg
  | .noModel =>
      .ok { b with output_queue := b.output_queue.append (.raw f)
                   last_frame := some (.raw f)
                   processedG := b.processedG + 1 }
  | .ok rows =>
      .ok { b with output_queue := b.output_queue.append (.drawn f rows)
                   last_frame := some (.drawn f rows)
                   processedG := b.processedG + 1 }

/-- One full iteration of the `while self.running` loop of
`process_frames` (lines 115-176): if the input deque is empty, sleep
and loop; otherwise pop a frame and run the body; on an exception the
`except` handler (lines 172-176) appends the raw frame to the output
deque without touching `last_frame`, and the loop continues. -/
def procIter (b : Buffer) (o : DetOutcome) : Buffer :=
  match b.input_queue.popleft with
  | (_, none) => b
  | (q, some f) =>
      match procBody { b with input_queue := q } f o with
      | .ok b2 => b2
      | .error _ =>
          { b with input_queue := q
                   output_queue := b.output_queue.append (.raw f)
                   errorsG := b.errorsG + 1 }

/-- One chunk emitted by the multipart generator: a self-delimited JPEG
part of a processed frame, or the "Waiting for frames..." placeholder
part (JPEG encoding of a valid frame is external and modelled total). -/
inductive Chunk where
  | jpeg (f : OutFrame)
  | placeholder
  deriving DecidableEq, Repr

/-- One iteration of the `generate()` loop of `video_stream`
(lines 253-286): fetch a frame via `get_processed_frame`; if one is
available yield its JPEG part, otherwise yield the placeholder part;
either way exactly one chunk is yielded per cycle. -/
def streamCycle (b : Buffer) : Buffer × Chunk :=
  match b.get_processed_frame with
  | (b1, some f) => (b1, .jpeg f)
  | (b1, none) => (b1, .placeholder)

/-- Events on the shared buffer: a producer upload, one worker iteration
with the given Detector outcome, or one multipart stream cycle. -/
inductive Event where
  | add (f : Frame)
  | work (o : DetOutcome)
  | cycle
  deriving DecidableEq, Repr

/-- Apply one event. -/
def stepEvent (b : Buffer) (e : Event) : Buffer :=
  match e with
  | .add f => b.add_frame f
  | .work o => procIter b o
  | .cycle => (streamCycle b).1

/-- Run a sequence of events. -/
def runEvents (b : Buffer) (evs : List Event) : Buffer :=
  evs.foldl stepEvent b

/-- Run `n` iterations of the multipart generator loop, collecting the
chunks it yields. -/
def chunksOf (b : Buffer) : Nat → Buffer × List Chunk
  | 0 => (b, [])
  | n + 1 =>
      match streamCycle b with
      | (b1, ch) =>
          match chunksOf b1 n with
          | (b2, chs) => (b2, ch :: chs)

end Stream

/-! ## COCO class names shared by the servers -/

/-- The `COCO_CLASSES` list (identical in `server.py`, `udp_server.py`,
`stream_server.py`, `hq_stream_server.py`). -/
def COCO_CLASSES : List String :=
  ["person", "bicycle", "car", "motorcycle", "airplane", "bus", "train",
   "truck", "boat", "traffic light", "fire hydrant", "stop sign",
   "parking meter", "bench", "bird", "cat", "dog", "horse", "sheep",
   "cow", "elephant", "bear", "zebra", "giraffe", "backpack", "umbrella",
   "handbag", "tie", "suitcase", "frisbee", "skis", "snowboard",
   "sports ball", "kite", "baseball bat", "baseball glove", "skateboard",
   "surfboard", "tennis racket", "bottle", "wine glass", "cup", "fork",
   "knife", "spoon", "bowl", "banana", "apple", "sandwich", "orange",
   "broccoli", "carrot", "hot dog", "pizza", "donut", "cake", "chair",
   "couch", "potted plant", "bed", "dining table", "toilet", "tv",
   "laptop", "mouse", "remote", "keyboard", "cell phone", "microwave",
   "oven", "toaster", "sink", "refrigerator", "book", "clock", "vase",
   "scissors", "teddy bear", "hair drier", "toothbrush"]

/-- Class-name lookup `COCO_CLASSES[cls_id] if cls_id < len(COCO_CLASSES)
else f"class_\x7bcls_id\x7d"`. -/
def cocoName (i : Nat) : String :=
  if i < COCO_CLASSES.length then COCO_CLASSES.getD i ""
  else "class_" ++ toString i

/-! ## Synchronous request/response servers (`server.py`, `udp_server.py`) -/

namespace RespServer

/-- Result dict of `server.py:run_detection` (lines 91-159): detection
list, image width/height, optional `note` and `error` strings. -/
structure DetResult where
  detections : List Detection
  w : Nat
  h : Nat
  note : Option String
  error : Option String
  deriving DecidableEq, Repr

/-- The hard-coded fallback detection returned by `server.py` when the
model is unavailable (lines 113-126). -/
def fallbackDet : Detection :=
  { x := 50, y := 50, w := 200, h := 150, cls := "defect", conf := 9 / 10 }

/-- Row-to-detection mapping of `server.py` (lines 144-153): top-left
coords, width/height from corner differences, class rendered as the
decimal string of the class id. -/
def rowToDet (r : ModelRow) : Detection :=
  { x := r.x1, y := r.y1, w := r.x2 - r.x1, h := r.y2 - r.y1
    cls := toString r.cls, conf := r.conf }

/-- Function `server.py:run_detection` on an image of size `w × h`, with the model
invocation summarised by `o`: model `None` yields the single hard-coded
fallback detection with `note := "fallback"`; an exception yields an
empty list with the message in `error`; otherwise the mapped rows.  The
true image width and height are returned in every branch. -/
def run_detection (o : DetOutcome) (w h : Nat) : DetResult :=
  match o with
  | .noModel =>
      { detections := [fallbackDet], w := w, h := h
        note := some "fallback", error := none }
  | .raises msg =>
      { detections := [], w := w, h := h, note := none, error := some msg }
  | .ok rows =>
      { detections := rows.map rowToDet, w := w, h := h
        note := none, error := none }

end RespServer

namespace Udp

/-- One detection dict of `udp_server.py` (lines 96-104), which also
carries the numeric class id. -/
structure UdpDetection where
  x : Int
  y : Int
  w : Int
  h : Int
  cls : String
  cls_id : Nat
  conf : ℚ
  deriving DecidableEq, Repr

/-- Result dict of `udp_server.py:run_detection` (lines 70-110). -/
structure UdpResult where
  detections : List UdpDetection
  w : Nat
  h : Nat
  error : Option String
  deriving DecidableEq, Repr

/-- Row-to-detection mapping of `udp_server.py` (lines 92-104): class
rendered through the COCO name table. -/
def rowToDet (r : ModelRow) : UdpDetection :=
  { x := r.x1, y := r.y1, w := r.x2 - r.x1, h := r.y2 - r.y1
    cls := cocoName r.cls, cls_id := r.cls, conf := r.conf }

/-- Function `udp_server.py:run_detection` on an image of size `w × h`: model
`None` yields an empty detection list (no fallback box, unlike
`server.py`); an exception yields an empty list with the message in
`error`; otherwise the mapped rows.  The true image width and height
are returned in every branch. -/
def run_detection (o : DetOutcome) (w h : Nat) : UdpResult :=
  match o with
  | .noModel => { detections := [], w := w, h := h, error := none }
  | .raises msg => { detections := [], w := w, h := h, error := some msg }
  | .ok rows => { detections := rows.map rowToDet, w := w, h := h, error := none }

/-- One datagram payload sent back to the client: either the full result
serialised as JSON, or the simplified dict
`\x7b"detections": [], "w": w, "h": h, "count": count\x7d`. -/
inductive UdpPayload where
  | full (r : UdpResult)
  | simplified (w h count : Nat)
  deriving DecidableEq, Repr

/-- The response step of the `start_udp_server` request loop
(lines 150-164), with `json.dumps` modelled by the abstract byte-length
function `encLen` of the full serialised result: when the serialised
response is below 65000 bytes, exactly one datagram with the full
result is sent; otherwise exactly one datagram with the simplified
dict, whose `count` is the number of detections.  No payload is ever
split across datagrams. -/
def respond (encLen : UdpResult → Nat) (r : UdpResult) : List UdpPayload :=
  if encLen r < 65000 then [.full r]
  else [.simplified r.w r.h r.detections.length]

end Udp

/-! ## Detection cache of the clients
(`src/frontend/client.py:detection_loop` lines 489-495,
`all_in_one/detector.py:update_display` lines 493-505) -/

namespace Cache

/-- The client-side detection cache: the last detection list and the
time (`time.time()`, modelled as a rational) it was stored. -/
structure DetCache where
  detections : List Detection
  last_detection_time : ℚ
  deriving DecidableEq, Repr

/-- The cache write performed when a detection result arrives (under the
client lock): store the list and stamp the current time. -/
def DetCache.update (_ : DetCache) (dets : List Detection) (now : ℚ) : DetCache :=
  { detections := dets, last_detection_time := now }

/-- The cache read performed each display cycle (under the client lock):
clear the stored list when it is older than 2.0 seconds, then snapshot
it.  Returns the possibly-cleared cache and the snapshot. -/
def DetCache.currentRead (c : DetCache) (now : ℚ) : DetCache × List Detection :=
  if now - c.last_detection_time > 2 then ({ c with detections := [] }, [])
  else (c, c.detections)

end Cache

/-! ## WebSocket stream session of `hq_stream_server.py` -/

namespace HQ

/-- A Python exception escaping a session loop iteration. -/
inductive PyExc where
  | nameErrorAsyncio
  deriving DecidableEq, Repr

/-- The `websocket_stream` session loop (lines 252-280) run for at most
`fuel` iterations, by a session whose local `frame_count` is `c`.
`haveAsyncio` records whether the name `asyncio` is bound in the module
namespace: `import asyncio` appears only inside the
`if __name__ == "__main__"` block (line 301), so under an ASGI server
it is `false` and the `await asyncio.sleep(...)` at the end of the
iteration raises `NameError`, which the `except` handler (line 282)
catches, ending the session.  Returns the processor, the session's
final `frame_count` (frames actually sent), and the exception caught
by the handler, if any; fuel exhaustion models a still-running
session. -/
def wsSessionLoop (haveAsyncio : Bool) :
    Processor → Nat → Nat → Processor × Nat × Option PyExc
  | p, c, 0 => (p, c, none)
  | p, c, fuel + 1 =>
      match wsIter p c with
      | (p1, c1) =>
          if haveAsyncio then wsSessionLoop haveAsyncio p1 c1 fuel
          else (p1, c1, some .nameErrorAsyncio)

end HQ

/-! ## Helper lemmas: queue capacity preservation -/

theorem PyQueue.putNowait_fst_cap {α : Type} (q : PyQueue α) (a : α) :
    ((q.putNowait a).1).cap = q.cap := by
  unfold putNowait
  split <;> rfl

theorem PyQueue.putNowait_fst_len {α : Type} (q : PyQueue α) (a : α)
    (h : q.items.length ≤ q.cap) :
    ((q.putNowait a).1).items.length ≤ q.cap := by
  unfold putNowait
  split
  · next hlt => simpa using hlt
  · exact h

theorem PyQueue.getTimeout_fst_cap {α : Type} (q : PyQueue α) :
    ((q.getTimeout).1).cap = q.cap := by
  rcases q with ⟨cap, items⟩
  cases items <;> rfl

theorem PyQueue.getTimeout_fst_len {α : Type} (q : PyQueue α) :
    ((q.getTimeout).1).items.length ≤ q.items.length := by
  rcases q with ⟨cap, items⟩
  cases items <;> simp [getTimeout]

theorem BDeque.append_maxlen {α : Type} (q : BDeque α) (a : α) :
    (q.append a).maxlen = q.maxlen := rfl

theorem BDeque.append_len_le {α : Type} (q : BDeque α) (a : α) :
    (q.append a).items.length ≤ q.maxlen := by
  simp only [append, List.length_drop, List.length_append]
  omega

theorem BDeque.popleft_fst_maxlen {α : Type} (q : BDeque α) :
    ((q.popleft).1).maxlen = q.maxlen := by
  rcases q with ⟨m, items⟩
  cases items <;> rfl

theorem BDeque.popleft_fst_len {α : Type} (q : BDeque α) :
    ((q.popleft).1).items.length ≤ q.items.length := by
  rcases q with ⟨m, items⟩
  cases items <;> simp [popleft]

/-! ## Helper lemmas: HQ processor invariants -/

namespace HQ

/-- Capacity invariant of a processor: both queues were constructed with
capacity `cap` and currently hold at most `cap` elements. -/
def QInv (cap : Nat) (p : Processor) : Prop :=
  p.input_queue.cap = cap ∧ p.input_queue.items.length ≤ cap ∧
  p.output_queue.cap = cap ∧ p.output_queue.items.length ≤ cap

theorem QInv_init (cap : Nat) : QInv cap (Processor.init cap) := by
  refine ⟨rfl, ?_, rfl, ?_⟩ <;> simp [Processor.init]

theorem QInv_add_frame {cap : Nat} {p : Processor} (h : QInv cap p) (f : Frame) :
    QInv cap (p.add_frame f) := by
  obtain ⟨hic, hil, hoc, hol⟩ := h
  have hc := PyQueue.putNowait_fst_cap p.input_queue f
  have hl := PyQueue.putNowait_fst_len p.input_queue f (by rw [hic]; exact hil)
  unfold Processor.add_frame
  cases hq : p.input_queue.putNowait f with
  | mk q ok =>
      rw [hq] at hc hl
      cases ok <;>
        exact ⟨hc.trans hic, le_trans hl (le_of_eq hic), hoc, hol⟩

theorem QInv_workerBody {cap : Nat} {p p2 : Processor} (h : QInv cap p)
    (f : Frame) (o : DetOutcome) (hb : workerBody p f o = .ok p2) :
    QInv cap p2 := by
  obtain ⟨hic, hil, hoc, hol⟩ := h
  unfold workerBody at hb
  split at hb
  · exact absurd hb (by simp)
  · split at hb <;> rename_i q hq <;> cases hb <;>
      refine ⟨hic, hil, ?_, ?_⟩
    · have hc := PyQueue.putNowait_fst_cap p.output_queue (OutFrame.raw f)
      rw [hq] at hc
      exact hc.trans hoc
    · have hl := PyQueue.putNowait_fst_len p.output_queue (OutFrame.raw f)
        (by rw [hoc]; exact hol)
      rw [hq] at hl
      exact le_trans hl (le_of_eq hoc)
    · have hc := PyQueue.putNowait_fst_cap p.output_queue (OutFrame.raw f)
      rw [hq] at hc
      exact hc.trans hoc
    · have hl := PyQueue.putNowait_fst_len p.output_queue (OutFrame.raw f)
        (by rw [hoc]; exact hol)
      rw [hq] at hl
      exact le_trans hl (le_of_eq hoc)
  · rename_i rows
    split at hb <;> rename_i q hq <;> cases hb <;>
      refine ⟨hic, hil, ?_, ?_⟩
    · have hc := PyQueue.putNowait_fst_cap p.output_queue (OutFrame.drawn f rows)
      rw [hq] at hc
      exact hc.trans hoc
    · have hl := PyQueue.putNowait_fst_len p.output_queue (OutFrame.drawn f rows)
        (by rw [hoc]; exact hol)
      rw [hq] at hl
      exact le_trans hl (le_of_eq hoc)
    · have hc := PyQueue.putNowait_fst_cap p.output_queue (OutFrame.drawn f rows)
      rw [hq] at hc
      exact hc.trans hoc
    · have hl := PyQueue.putNowait_fst_len p.output_queue (OutFrame.drawn f rows)
        (by rw [hoc]; exact hol)
      rw [hq] at hl
      exact le_trans hl (le_of_eq hoc)

theorem QInv_workerIter {cap : Nat} {p : Processor} (h : QInv cap p)
    (o : DetOutcome) : QInv cap (workerIter p o) := by
  obtain ⟨hic, hil, hoc, hol⟩ := h
  unfold workerIter
  split
  · exact ⟨hic, hil, hoc, hol⟩
  · rename_i q f hq
    have hc := PyQueue.getTimeout_fst_cap p.input_queue
    have hl := PyQueue.getTimeout_fst_len p.input_queue
    rw [hq] at hc hl
    have h1 : QInv cap { p with input_queue := q, dequeuedG := p.dequeuedG + 1 } :=
      ⟨hc.trans hic, le_trans hl hil, hoc, hol⟩
    split
    · rename_i p2 hb
      exact QInv_workerBody h1 f o hb
    · exact ⟨hc.trans hic, le_trans hl hil, hoc, hol⟩

theorem QInv_wsIter {cap : Nat} {p : Processor} (h : QInv cap p) (c : Nat) :
    QInv cap (wsIter p c).1 := by
  obtain ⟨hic, hil, hoc, hol⟩ := h
  unfold wsIter Processor.get_frame
  split
  · rename_i p1 f hp1
    have hc := PyQueue.getTimeout_fst_cap p.output_queue
    have hl := PyQueue.getTimeout_fst_len p.output_queue
    split at hp1
    rename_i q r hq
    cases hp1
    rw [hq] at hc hl
    exact ⟨hic, hil, hc.trans hoc, le_trans hl hol⟩
  · rename_i p1 hp1
    have hc := PyQueue.getTimeout_fst_cap p.output_queue
    have hl := PyQueue.getTimeout_fst_len p.output_queue
    split at hp1
    rename_i q r hq
    cases hp1
    rw [hq] at hc hl
    exact ⟨hic, hil, hc.trans hoc, le_trans hl hol⟩

theorem QInv_stepEvent {cap : Nat} {p : Processor} (h : QInv cap p) (e : Event) :
    QInv cap (stepEvent p e) := by
  cases e with
  | add f => exact QInv_add_frame h f
  | work o => exact QInv_workerIter h o
  | ws c => exact QInv_wsIter h c

theorem QInv_runEvents {cap : Nat} {p : Processor} (h : QInv cap p)
    (evs : List Event) : QInv cap (runEvents p evs) := by
  induction evs generalizing p with
  | nil => exact h
  | cons e rest ih => exact ih (QInv_stepEvent h e)

/-! ### Monotonicity of the received / processed / dropped counters -/

theorem stats_mono_workerBody {p p2 : Processor} (f : Frame) (o : DetOutcome)
    (hb : workerBody p f o = .ok p2) :
    p.stats.received ≤ p2.stats.received ∧
    p.stats.processed ≤ p2.stats.processed ∧
    p.stats.dropped ≤ p2.stats.dropped := by
  unfold workerBody at hb
  split at hb
  · exact absurd hb (by simp)
  · split at hb <;> cases hb <;> exact ⟨le_refl _, by simp, by simp⟩
  · split at hb <;> cases hb <;> exact ⟨le_refl _, by simp, by simp⟩

theorem stats_mono_stepEvent (p : Processor) (e : Event) :
    p.stats.received ≤ (stepEvent p e).stats.received ∧
    p.stats.processed ≤ (stepEvent p e).stats.processed ∧
    p.stats.dropped ≤ (stepEvent p e).stats.dropped := by
  cases e with
  | add f =>
      simp only [stepEvent]
      unfold Processor.add_frame
      split <;> exact ⟨by simp, le_refl _, by simp⟩
  | work o =>
      simp only [stepEvent]
      unfold workerIter
      split
      · exact ⟨le_refl _, le_refl _, le_refl _⟩
      · rename_i q f hq
        split
        · rename_i p2 hb
          have h2 := stats_mono_workerBody f o hb
          dsimp only at h2
          exact h2
        · exact ⟨le_refl _, le_refl _, le_refl _⟩
  | ws c =>
      simp only [stepEvent]
      unfold wsIter Processor.get_frame
      split
      · rename_i p1 v hp1
        split at hp1
        rename_i q r hq
        cases hp1
        exact ⟨le_refl _, le_refl _, le_refl _⟩
      · rename_i p1 hp1
        split at hp1
        rename_i q r hq
        cases hp1
        exact ⟨le_refl _, le_refl _, le_refl _⟩

theorem stats_mono_runEvents (p : Processor) (evs : List Event) :
    p.stats.received ≤ (runEvents p evs).stats.received ∧
    p.stats.processed ≤ (runEvents p evs).stats.processed ∧
    p.stats.dropped ≤ (runEvents p evs).stats.dropped := by
  induction evs generalizing p with
  | nil => exact ⟨le_refl _, le_refl _, le_refl _⟩
  | cons e rest ih =>
      have h1 := stats_mono_stepEvent p e
      have h2 := ih (stepEvent p e)
      exact ⟨le_trans h1.1 h2.1, le_trans h1.2.1 h2.2.1, le_trans h1.2.2 h2.2.2⟩

/-! ### Worker accounting: every dequeued frame is either counted as
processed, dropped on output overflow, or skipped on a Detector error -/

/-- Accounting invariant relating the ghost dequeue counter to the
`processed` counter and the two discard paths. -/
def Acc (p : Processor) : Prop :=
  p.dequeuedG = p.stats.processed + p.outDroppedG + p.raisedG

theorem Acc_workerBody {p p2 : Processor} (f : Frame) (o : DetOutcome)
    (hb : workerBody p f o = .ok p2) :
    p2.stats.processed + p2.outDroppedG = p.stats.processed + p.outDroppedG + 1 ∧
    p2.dequeuedG = p.dequeuedG ∧ p2.raisedG = p.raisedG := by
  unfold workerBody at hb
  split at hb
  · exact absurd hb (by simp)
  · split at hb <;> cases hb <;> refine ⟨by simp; omega, rfl, rfl⟩
  · split at hb <;> cases hb <;> refine ⟨by simp; omega, rfl, rfl⟩

theorem Acc_stepEvent {p : Processor} (h : Acc p) (e : Event) :
    Acc (stepEvent p e) := by
  cases e with
  | add f =>
      simp only [stepEvent]
      unfold Processor.add_frame
      split <;> exact h
  | work o =>
      simp only [stepEvent]
      unfold workerIter
      split
      · exact h
      · rename_i q f hq
        split
        · rename_i p2 hb
          have h2 := Acc_workerBody f o hb
          dsimp only at h2
          unfold Acc at h ⊢
          omega
        · unfold Acc at h ⊢
          dsimp only
          omega
  | ws c =>
      simp only [stepEvent]
      unfold wsIter Processor.get_frame
      split
      · rename_i p1 v hp1
        split at hp1
        rename_i q r hq
        cases hp1
        exact h
      · rename_i p1 hp1
        split at hp1
        rename_i q r hq
        cases hp1
        exact h

theorem Acc_runEvents {p : Processor} (h : Acc p) (evs : List Event) :
    Acc (runEvents p evs) := by
  induction evs generalizing p with
  | nil => exact h
  | cons e rest ih => exact ih (Acc_stepEvent h e)

end HQ

/-! ## Helper lemmas: stream buffer invariants -/

namespace Stream

/-- Capacity invariant of a buffer: both deques were constructed with
bound `cap` and currently hold at most `cap` elements. -/
def BInv (cap : Nat) (b : Buffer) : Prop :=
  b.input_queue.maxlen = cap ∧ b.input_queue.items.length ≤ cap ∧
  b.output_queue.maxlen = cap ∧ b.output_queue.items.length ≤ cap

theorem BInv_init (cap : Nat) : BInv cap (Buffer.init cap) := by
  refine ⟨rfl, ?_, rfl, ?_⟩ <;> simp [Buffer.init]

theorem BInv_add_frame {cap : Nat} {b : Buffer} (h : BInv cap b) (f : Frame) :
    BInv cap (b.add_frame f) := by
  obtain ⟨hic, hil, hoc, hol⟩ := h
  have hl := BDeque.append_len_le b.input_queue f
  exact ⟨hic, by rw [← hic]; exact hl, hoc, hol⟩

theorem BInv_procIter {cap : Nat} {b : Buffer} (h : BInv cap b)
    (o : DetOutcome) : BInv cap (procIter b o) := by
  obtain ⟨hic, hil, hoc, hol⟩ := h
  unfold procIter
  split
  · exact ⟨hic, hil, hoc, hol⟩
  · rename_i q f hq
    have hc := BDeque.popleft_fst_maxlen b.input_queue
    have hl := BDeque.popleft_fst_len b.input_queue
    rw [hq] at hc hl
    have hq1 : q.maxlen = cap := hc.trans hic
    have hq2 : q.items.length ≤ cap := le_trans hl hil
    split
    · rename_i b2 hb
      unfold procBody at hb
      split at hb
      · exact absurd hb (by simp)
      · cases hb
        exact ⟨hq1, hq2, hoc,
          by rw [← hoc]; exact BDeque.append_len_le b.output_queue _⟩
      · cases hb
        exact ⟨hq1, hq2, hoc,
          by rw [← hoc]; exact BDeque.append_len_le b.output_queue _⟩
    · exact ⟨hq1, hq2, hoc,
        by rw [← hoc]; exact BDeque.append_len_le b.output_queue _⟩

theorem BInv_streamCycle {cap : Nat} {b : Buffer} (h : BInv cap b) :
    BInv cap (streamCycle b).1 := by
  obtain ⟨hic, hil, hoc, hol⟩ := h
  unfold streamCycle Buffer.get_processed_frame
  have hc := BDeque.popleft_fst_maxlen b.output_queue
  have hl := BDeque.popleft_fst_len b.output_queue
  split
  · rename_i b1 f hb1
    split at hb1
    · rename_i q g hq
      injection hb1 with e1 e2
      subst e1
      rw [hq] at hc hl
      exact ⟨hic, hil, hc.trans hoc, le_trans hl hol⟩
    · rename_i hq
      injection hb1 with e1 e2
      subst e1
      exact ⟨hic, hil, hoc, hol⟩
  · rename_i b1 hb1
    split at hb1
    · rename_i q g hq
      injection hb1 with e1 e2
      subst e1
      rw [hq] at hc hl
      exact ⟨hic, hil, hc.trans hoc, le_trans hl hol⟩
    · rename_i hq
      injection hb1 with e1 e2
      subst e1
      exact ⟨hic, hil, hoc, hol⟩

theorem BInv_stepEvent {cap : Nat} {b : Buffer} (h : BInv cap b) (e : Event) :
    BInv cap (stepEvent b e) := by
  cases e with
  | add f => exact BInv_add_frame h f
  | work o => exact BInv_procIter h o
  | cycle => exact BInv_streamCycle h

theorem BInv_runEvents {cap : Nat} {b : Buffer} (h : BInv cap b)
    (evs : List Event) : BInv cap (runEvents b evs) := by
  induction evs generalizing b with
  | nil => exact h
  | cons e rest ih => exact ih (BInv_stepEvent h e)

/-! ### Placeholder lineage: `last_frame` is set exactly by successful
worker iterations -/

/-- Lineage invariant: if no frame has ever been successfully processed
(`processedG = 0` counts success-path iterations of `process_frames`),
the fallback `last_frame` is still unset, and conversely. -/
def LInv (b : Buffer) : Prop :=
  b.last_frame = none ↔ b.processedG = 0

theorem LInv_init (cap : Nat) : LInv (Buffer.init cap) :=
  Iff.intro (fun _ => rfl) (fun _ => rfl)

theorem LInv_stepEvent {b : Buffer} (h : LInv b) (e : Event) :
    LInv (stepEvent b e) := by
  cases e with
  | add f => exact h
  | work o =>
      simp only [stepEvent]
      unfold procIter
      split
      · exact h
      · rename_i q f hq
        split
        · rename_i b2 hb
          unfold procBody at hb
          split at hb
          · exact absurd hb (by simp)
          · cases hb
            exact Iff.intro (fun hx => absurd hx (by simp)) (fun hx => by simp at hx)
          · cases hb
            exact Iff.intro (fun hx => absurd hx (by simp)) (fun hx => by simp at hx)
        · exact h
  | cycle =>
      simp only [stepEvent]
      unfold streamCycle Buffer.get_processed_frame
      split
      · rename_i b1 f hb1
        split at hb1
        · rename_i q g hq
          injection hb1 with e1 e2
          subst e1
          exact h
        · rename_i hq
          injection hb1 with e1 e2
          subst e1
          exact h
      · rename_i b1 hb1
        split at hb1
        · rename_i q g hq
          injection hb1 with e1 e2
          subst e1
          exact h
        · rename_i hq
          injection hb1 with e1 e2
          subst e1
          exact h

theorem LInv_runEvents {b : Buffer} (h : LInv b) (evs : List Event) :
    LInv (runEvents b evs) := by
  induction evs generalizing b with
  | nil => exact h
  | cons e rest ih => exact ih (LInv_stepEvent h e)

/-- Chunk selection: a non-empty output queue serves its oldest frame. -/
theorem streamCycle_chunk_head (b : Buffer) (f : OutFrame) (rest : List OutFrame)
    (h : b.output_queue.items = f :: rest) : (streamCycle b).2 = .jpeg f := by
  simp [streamCycle, Buffer.get_processed_frame, BDeque.popleft, h]

/-- Chunk selection: an empty output queue serves the most recently
processed frame when one exists. -/
theorem streamCycle_chunk_last (b : Buffer) (lf : OutFrame)
    (h1 : b.output_queue.items = []) (h2 : b.last_frame = some lf) :
    (streamCycle b).2 = .jpeg lf := by
  simp [streamCycle, Buffer.get_processed_frame, BDeque.popleft, h1, h2]

/-- Chunk selection: the placeholder is served only when the output queue
is empty and no fallback frame exists. -/
theorem streamCycle_placeholder {b : Buffer}
    (h : (streamCycle b).2 = .placeholder) :
    b.output_queue.items = [] ∧ b.last_frame = none := by
  cases hi : b.output_queue.items with
  | cons f rest =>
      rw [streamCycle_chunk_head b f rest hi] at h
      exact absurd h (by simp)
  | nil =>
      cases hl : b.last_frame with
      | some lf =>
          rw [streamCycle_chunk_last b lf hi hl] at h
          exact absurd h (by simp)
      | none => exact ⟨rfl, rfl⟩

/-- Each generator cycle yields exactly one chunk. -/
theorem chunksOf_length (b : Buffer) (n : Nat) :
    (chunksOf b n).2.length = n := by
  induction n generalizing b with
  | zero => rfl
  | succ k ih =>
      unfold chunksOf
      cases hs : streamCycle b with
      | mk b1 ch =>
          dsimp only
          cases hr : chunksOf b1 k with
          | mk b2 chs =>
              have h2 := ih b1
              rw [hr] at h2
              simpa using h2

end Stream

/-! ## Helper lemmas: behaviour of the `sent` counter under the
program's serving mode -/

namespace HQ

/-- Events the program can actually perform in its only serving mode:
under an ASGI server every `/stream` session raises `NameError` at the
pacing sleep of its first loop iteration (the fact settled with C9), so
a session performs at most one send-loop iteration and its local
`frame_count` is always 0 there.  Producer submissions and worker
iterations are unrestricted. -/
def servableEvent : Event → Bool
  | .ws c => c == 0
  | _ => true

/-- Spec-side mutation of `sent` for one send-loop iteration, following
the spec's words that counters are "mutated only through atomic/locked
increment": a successful send increments the shared counter by one.
Defined only to be compared against the source's assignment at
`hq_stream_server.py` line 272, which writes the session-local
`frame_count` instead. -/
def wsIterSpecIncrement (p : Processor) (c : Nat) : Processor × Nat :=
  match p.get_frame with
  | (p1, some _) =>
      ({ p1 with stats := { p1.stats with sent := p1.stats.sent + 1 } }, c + 1)
  | (p1, none) => (p1, c)

theorem workerBody_sent {p p2 : Processor} (f : Frame) (o : DetOutcome)
    (hb : workerBody p f o = .ok p2) : p2.stats.sent = p.stats.sent := by
  unfold workerBody at hb
  split at hb
  · exact absurd hb (by simp)
  · split at hb <;> cases hb <;> rfl
  · split at hb <;> cases hb <;> rfl

theorem stepEvent_sent (p : Processor) (e : Event) :
    (stepEvent p e).stats.sent = p.stats.sent ∨
    ∃ c, e = .ws c ∧ (stepEvent p e).stats.sent = c + 1 := by
  cases e with
  | add f =>
      left
      simp only [stepEvent]
      unfold Processor.add_frame
      split <;> rfl
  | work o =>
      left
      simp only [stepEvent]
      unfold workerIter
      split
      · rfl
      · rename_i q f hq
        split
        · rename_i p2 hb
          have h2 := workerBody_sent f o hb
          exact h2
        · rfl
  | ws c =>
      simp only [stepEvent]
      unfold wsIter Processor.get_frame
      split
      · right
        exact ⟨c, rfl, rfl⟩
      · left
        rename_i p1 hp1
        split at hp1
        rename_i q r hq
        cases hp1
        rfl

theorem sent_mono_runEvents (p : Processor) (evs : List Event)
    (hs : ∀ e ∈ evs, servableEvent e = true) (hp : p.stats.sent ≤ 1) :
    p.stats.sent ≤ (runEvents p evs).stats.sent ∧
    (runEvents p evs).stats.sent ≤ 1 := by
  induction evs generalizing p with
  | nil => exact ⟨le_refl _, hp⟩
  | cons e rest ih =>
      have he := hs e (List.mem_cons_self e rest)
      have hstep : p.stats.sent ≤ (stepEvent p e).stats.sent ∧
          (stepEvent p e).stats.sent ≤ 1 := by
        cases stepEvent_sent p e with
        | inl h =>
            rw [h]
            exact ⟨le_refl _, hp⟩
        | inr h =>
            obtain ⟨c, hec, hval⟩ := h
            subst hec
            simp [servableEvent] at he
            subst he
            rw [hval]
            omega
      have h2 := ih (stepEvent p e) (fun x hx => hs x (List.mem_cons_of_mem e hx)) hstep.2
      exact ⟨le_trans hstep.1 h2.1, h2.2⟩

end HQ

/-! ## Concrete scenarios used by the claims -/

/-- A sample detection value for witnesses. -/
def sampleDet : Detection :=
  { x := 1, y := 2, w := 3, h := 4, cls := "person", conf := 1 / 2 }

/-- Five sequential `add_frame` submissions of distinct frames 1..5 into
a `HighQualityFrameProcessor` whose queues have capacity 3 (the overflow
scenario described by the spec). -/
def hqOverflowRun : HQ.Processor :=
  List.foldl HQ.Processor.add_frame (HQ.Processor.init 3) [1, 2, 3, 4, 5]

/-- A reachable two-session scenario: session one sends a frame at its
only send-loop iteration (`frame_count` 0) and dies at its first pacing
sleep; one more frame is uploaded and processed; the state then awaits
session two's first iteration.  Every event is servable. -/
def hqTwoSessionTrace : List HQ.Event :=
  [.add 10, .work (.ok []), .ws 0, .add 11, .work (.ok [])]

/-- The processor state after `hqTwoSessionTrace`; its `sent` counter
is 1 and one processed frame awaits in the output queue. -/
def hqTwoSessionState : HQ.Processor :=
  HQ.runEvents (HQ.Processor.init 90) hqTwoSessionTrace

/-- A saturation trace: 92 upload/process rounds with no consumer
draining the output queue, so the last two worker pushes overflow the
90-slot output queue. -/
def hqSaturationTrace : List HQ.Event :=
  (List.range 92).flatMap (fun i => [.add i, .work (.ok [])])

/-- The processor state after `hqSaturationTrace`. -/
def hqSaturationState : HQ.Processor :=
  HQ.runEvents (HQ.Processor.init 90) hqSaturationTrace

set_option maxRecDepth 10000

/-! ## Claims -/

/-- C1, counterexample: with an input queue of capacity 3 and 5
sequential submissions of frames 1..5, the queue does hold frames
[1, 2, 3] and `dropped` is 2, but `received` is 3, not 5 — `add_frame`
increments `received` only when `put_nowait` succeeds — so the claimed
conjunction is false. -/
theorem C1_counterexample :
    ¬ (hqOverflowRun.input_queue.items = [1, 2, 3] ∧
       hqOverflowRun.stats.received = 5 ∧
       hqOverflowRun.stats.dropped = 2) := by
  decide

/-- C1, amended: after 5 sequential submissions of frames 1..5 into an
input queue of capacity 3, the queue holds exactly frames [1, 2, 3]
(drop-newest), `received` = 3 (incremented only on accepted frames),
and `dropped` = 2 (one increment per rejected attempt). -/
theorem C1_amended_accounting :
    hqOverflowRun.input_queue.items = [1, 2, 3] ∧
    hqOverflowRun.stats.received = 3 ∧
    hqOverflowRun.stats.dropped = 2 := by
  decide

/-- C2, counterexample: the mutation of `sent` is not a locked/atomic
increment.  In the reachable schedule `hqTwoSessionTrace` (all events
servable — every session runs exactly one send-loop iteration before
dying at the pacing sleep), session one's send leaves `sent` = 1; when
session two's first iteration then sends the waiting frame, line 272
executes `stats['sent'] = frame_count` again, and `sent` stays 1 —
whereas the spec's increment semantics (`wsIterSpecIncrement`) would
yield 2.  The write is an assignment of the session-local counter, not
an increment of the shared one. -/
theorem C2_counterexample :
    hqTwoSessionTrace.all HQ.servableEvent = true ∧
    hqTwoSessionState.stats.sent = 1 ∧
    (HQ.wsIter hqTwoSessionState 0).2 = 1 ∧
    (HQ.wsIter hqTwoSessionState 0).1.stats.sent = 1 ∧
    (HQ.wsIterSpecIncrement hqTwoSessionState 0).1.stats.sent = 2 ∧
    ¬ ((HQ.wsIter hqTwoSessionState 0).1.stats.sent =
        hqTwoSessionState.stats.sent + 1) := by
  decide

/-- C2, amended: across every servable event sequence (producer
submissions, worker iterations, and websocket send iterations — which,
under the program's only serving mode, always run with a fresh
session-local counter of 0), none of the counters `received`,
`processed`, `dropped`, `sent` ever decreases; `received`, `processed`
and `dropped` are mutated only through locked increments, while `sent`
is mutated by an unlocked assignment of the session-local frame count —
which, because every session dies at its first pacing sleep, only ever
writes the value 1 and so never decreases the counter, but is not an
increment (a fresh session's send can leave `sent` at 1 instead of
raising it to 2). -/
theorem C2_amended_monotone (p : HQ.Processor) (evs : List HQ.Event)
    (hs : ∀ e ∈ evs, HQ.servableEvent e = true) (hp : p.stats.sent ≤ 1) :
    p.stats.received ≤ (HQ.runEvents p evs).stats.received ∧
    p.stats.processed ≤ (HQ.runEvents p evs).stats.processed ∧
    p.stats.dropped ≤ (HQ.runEvents p evs).stats.dropped ∧
    p.stats.sent ≤ (HQ.runEvents p evs).stats.sent := by
  have h1 := HQ.stats_mono_runEvents p evs
  have h2 := HQ.sent_mono_runEvents p evs hs hp
  exact ⟨h1.1, h1.2.1, h1.2.2, h2.1⟩

/-- C2, amended, witness: a concrete servable trace from the fresh
processor — one upload, one worker round, one send — under which all
four counters are monotone. -/
theorem C2_amended_monotone_witness :
    (HQ.Processor.init 90).stats.sent ≤ 1 ∧
    (HQ.Processor.init 90).stats.sent ≤
      (HQ.runEvents (HQ.Processor.init 90)
        [.add 10, .work (.ok []), .ws 0]).stats.sent :=
  ⟨by decide,
   (C2_amended_monotone (HQ.Processor.init 90)
      [.add 10, .work (.ok []), .ws 0]
      (by decide) (by decide)).2.2.2⟩

/-- C3: under every sequence of events (submissions, worker iterations,
consumer reads), the queues of the high-quality processor never hold
more than their configured 90 slots, and the deques of the stream buffer
never hold more than their configured 60 slots. -/
theorem C3_capacity_bound (evsH : List HQ.Event) (evsS : List Stream.Event) :
    (HQ.runEvents (HQ.Processor.init 90) evsH).input_queue.items.length ≤ 90 ∧
    (HQ.runEvents (HQ.Processor.init 90) evsH).output_queue.items.length ≤ 90 ∧
    (Stream.runEvents (Stream.Buffer.init 60) evsS).input_queue.items.length ≤ 60 ∧
    (Stream.runEvents (Stream.Buffer.init 60) evsS).output_queue.items.length ≤ 60 := by
  have h1 := HQ.QInv_runEvents (HQ.QInv_init 90) evsH
  have h2 := Stream.BInv_runEvents (Stream.BInv_init 60) evsS
  exact ⟨h1.2.1, h1.2.2.2, h2.2.1, h2.2.2.2⟩

/-- C4, counterexample: `processed` does not equal the number of frames
dequeued from the input queue.  After 92 upload/process rounds with no
consumer, 92 frames have been dequeued but `processed` is only 90: the
two iterations whose output push overflowed incremented `dropped`
instead of `processed`. -/
theorem C4_counterexample :
    ¬ (hqSaturationState.stats.processed = hqSaturationState.dequeuedG) := by
  decide

/-- C4, amended: every dequeued frame is accounted for exactly once —
`processed` counts the frames whose annotated result was successfully
pushed into the output queue, and the remaining dequeued frames were
either dropped on output overflow (incrementing `dropped`) or skipped on
a Detector exception; dequeued = processed + output-drops + errors. -/
theorem C4_amended_accounting (evs : List HQ.Event) :
    (HQ.runEvents (HQ.Processor.init 90) evs).dequeuedG =
      (HQ.runEvents (HQ.Processor.init 90) evs).stats.processed +
      (HQ.runEvents (HQ.Processor.init 90) evs).outDroppedG +
      (HQ.runEvents (HQ.Processor.init 90) evs).raisedG := by
  have h0 : HQ.Acc (HQ.Processor.init 90) := rfl
  exact HQ.Acc_runEvents h0 evs

/-- C5: cache staleness. Reading the detections at time `t` after an
update at `t0` returns the empty list when `t - t0 > 2.0`, and returns
exactly the stored list when `t - t0 ≤ 2.0`; two reads within the expiry
window with no intervening update return identical results. -/
theorem C5_cache_staleness (c : Cache.DetCache) (dets : List Detection)
    (t0 t t1 t2 : ℚ) :
    (t - t0 > 2 → (((c.update dets t0).currentRead t)).2 = []) ∧
    (t - t0 ≤ 2 → (((c.update dets t0).currentRead t)).2 = dets) ∧
    (t1 - t0 ≤ 2 → t2 - t0 ≤ 2 →
      ((((c.update dets t0).currentRead t1).1).currentRead t2).2 =
        (((c.update dets t0).currentRead t1)).2) := by
  refine ⟨fun h => ?_, fun h => ?_, fun ha hb => ?_⟩
  · simp [Cache.DetCache.update, Cache.DetCache.currentRead, h]
  · simp [Cache.DetCache.update, Cache.DetCache.currentRead, not_lt.mpr h]
  · simp [Cache.DetCache.update, Cache.DetCache.currentRead,
      not_lt.mpr ha, not_lt.mpr hb]

/-- C5, witness: a cache updated at time 0 read at 2.1 s is empty, read
at 1.9 s returns the stored set, and two reads at 1.0 s and 1.9 s with
no intervening update agree. -/
theorem C5_cache_staleness_witness :
    ((((⟨[], 0⟩ : Cache.DetCache).update [sampleDet] 0).currentRead (21 / 10))).2 = [] ∧
    ((((⟨[], 0⟩ : Cache.DetCache).update [sampleDet] 0).currentRead (19 / 10))).2 = [sampleDet] ∧
    (((((⟨[], 0⟩ : Cache.DetCache).update [sampleDet] 0).currentRead 1).1).currentRead (19 / 10)).2 =
      ((((⟨[], 0⟩ : Cache.DetCache).update [sampleDet] 0).currentRead 1)).2 :=
  ⟨(C5_cache_staleness ⟨[], 0⟩ [sampleDet] 0 (21 / 10) 0 0).1 (by norm_num),
   (C5_cache_staleness ⟨[], 0⟩ [sampleDet] 0 (19 / 10) 0 0).2.1 (by norm_num),
   (C5_cache_staleness ⟨[], 0⟩ [sampleDet] 0 0 1 (19 / 10)).2.2 (by norm_num) (by norm_num)⟩

/-- C6: a Detector exception is caught inside the loop body of both
workers. In the high-quality worker the dequeued frame is skipped (no
output, counters untouched, only the ghost error count moves); in the
stream worker the unannotated raw frame is emitted to the output deque;
and in both cases the event run simply continues with the next event —
an iteration never escapes the loop. -/
theorem C6_worker_survives_detector_errors (p : HQ.Processor)
    (b : Stream.Buffer) (f : Frame) (msg : String)
    (restH restS : List Frame) (o : DetOutcome)
    (evsH : List HQ.Event) (evsS : List Stream.Event) :
    (p.input_queue.items = f :: restH →
      HQ.workerIter p (.raises msg) =
        { p with input_queue := { p.input_queue with items := restH }
                 dequeuedG := p.dequeuedG + 1
                 raisedG := p.raisedG + 1 }) ∧
    (b.input_queue.items = f :: restS →
      Stream.procIter b (.raises msg) =
        { b with input_queue := { b.input_queue with items := restS }
                 output_queue := b.output_queue.append (.raw f)
                 errorsG := b.errorsG + 1 }) ∧
    HQ.runEvents p (.work o :: evsH) = HQ.runEvents (HQ.workerIter p o) evsH ∧
    Stream.runEvents b (.work o :: evsS) =
      Stream.runEvents (Stream.procIter b o) evsS := by
  refine ⟨fun h => ?_, fun h => ?_, rfl, rfl⟩
  · have hg : p.input_queue.getTimeout =
        ({ p.input_queue with items := restH }, some f) := by
      unfold PyQueue.getTimeout
      rw [h]
    unfold HQ.workerIter
    rw [hg]
    rfl
  · have hg : b.input_queue.popleft =
        ({ b.input_queue with items := restS }, some f) := by
      unfold BDeque.popleft
      rw [h]
    unfold Stream.procIter
    rw [hg]
    rfl

/-- C6, witness: a processor and a buffer each holding one queued frame,
hit by a Detector exception. -/
theorem C6_worker_survives_witness :
    HQ.workerIter (HQ.Processor.add_frame (HQ.Processor.init 90) 7) (.raises "boom") =
      { HQ.Processor.add_frame (HQ.Processor.init 90) 7 with
          input_queue :=
            { (HQ.Processor.add_frame (HQ.Processor.init 90) 7).input_queue with items := [] }
          dequeuedG := (HQ.Processor.add_frame (HQ.Processor.init 90) 7).dequeuedG + 1
          raisedG := (HQ.Processor.add_frame (HQ.Processor.init 90) 7).raisedG + 1 } ∧
    Stream.procIter (Stream.Buffer.add_frame (Stream.Buffer.init 60) 7) (.raises "boom") =
      { Stream.Buffer.add_frame (Stream.Buffer.init 60) 7 with
          input_queue :=
            { (Stream.Buffer.add_frame (Stream.Buffer.init 60) 7).input_queue with items := [] }
          output_queue :=
            (Stream.Buffer.add_frame (Stream.Buffer.init 60) 7).output_queue.append (.raw 7)
          errorsG := (Stream.Buffer.add_frame (Stream.Buffer.init 60) 7).errorsG + 1 } :=
  ⟨(C6_worker_survives_detector_errors
      (HQ.Processor.add_frame (HQ.Processor.init 90) 7)
      (Stream.Buffer.add_frame (Stream.Buffer.init 60) 7)
      7 "boom" [] [] (.ok []) [] []).1 (by decide),
   (C6_worker_survives_detector_errors
      (HQ.Processor.add_frame (HQ.Processor.init 90) 7)
      (Stream.Buffer.add_frame (Stream.Buffer.init 60) 7)
      7 "boom" [] [] (.ok []) [] []).2.1 (by decide)⟩

/-- C7: for every inbound request, exactly one datagram is sent; when the
serialised detection response would exceed the 65000-byte transport
limit the server degrades to a single well-formed simplified payload
carrying the image width, height and a `count` equal to the number of
detections with an empty detection list, and a serialised response
strictly below the limit is sent in full — a payload is never truncated
or split. -/
theorem C7_oversized_degradation (encLen : Udp.UdpResult → Nat)
    (r : Udp.UdpResult) :
    (Udp.respond encLen r).length = 1 ∧
    (65000 < encLen r →
      Udp.respond encLen r = [.simplified r.w r.h r.detections.length]) ∧
    (encLen r < 65000 → Udp.respond encLen r = [.full r]) := by
  unfold Udp.respond
  refine ⟨?_, fun h => ?_, fun h => ?_⟩
  · split <;> rfl
  · rw [if_neg (by omega)]
  · rw [if_pos h]

/-- C7, witness: a one-detection result under an oversized serialisation
is degraded to the simplified payload, and under a small serialisation
is sent in full. -/
theorem C7_oversized_degradation_witness :
    Udp.respond (fun _ => 70000)
        { detections := [Udp.rowToDet ⟨0, 0, 10, 10, 1 / 2, 0⟩], w := 640, h := 480, error := none } =
      [.simplified 640 480 1] ∧
    Udp.respond (fun _ => 10)
        { detections := [Udp.rowToDet ⟨0, 0, 10, 10, 1 / 2, 0⟩], w := 640, h := 480, error := none } =
      [.full { detections := [Udp.rowToDet ⟨0, 0, 10, 10, 1 / 2, 0⟩], w := 640, h := 480, error := none }] :=
  ⟨(C7_oversized_degradation (fun _ => 70000)
      { detections := [Udp.rowToDet ⟨0, 0, 10, 10, 1 / 2, 0⟩], w := 640, h := 480, error := none }).2.1
      (by norm_num),
   (C7_oversized_degradation (fun _ => 10)
      { detections := [Udp.rowToDet ⟨0, 0, 10, 10, 1 / 2, 0⟩], w := 640, h := 480, error := none }).2.2
      (by norm_num)⟩

/-- C8: the multipart generator yields exactly one chunk per cycle (`n`
cycles yield `n` chunks); the chunk is the oldest queued processed frame
when the output deque is non-empty, otherwise the most recently
processed frame when one exists, and the placeholder is served only when
no frame has ever been successfully processed. -/
theorem C8_stream_always_yields (evs : List Stream.Event) (n : Nat) :
    (Stream.chunksOf (Stream.runEvents (Stream.Buffer.init 60) evs) n).2.length = n ∧
    (∀ f rest,
      (Stream.runEvents (Stream.Buffer.init 60) evs).output_queue.items = f :: rest →
      (Stream.streamCycle (Stream.runEvents (Stream.Buffer.init 60) evs)).2 = .jpeg f) ∧
    (∀ lf,
      (Stream.runEvents (Stream.Buffer.init 60) evs).output_queue.items = [] →
      (Stream.runEvents (Stream.Buffer.init 60) evs).last_frame = some lf →
      (Stream.streamCycle (Stream.runEvents (Stream.Buffer.init 60) evs)).2 = .jpeg lf) ∧
    ((Stream.streamCycle (Stream.runEvents (Stream.Buffer.init 60) evs)).2 = .placeholder →
      (Stream.runEvents (Stream.Buffer.init 60) evs).processedG = 0) := by
  refine ⟨Stream.chunksOf_length _ n,
    fun f rest h => Stream.streamCycle_chunk_head _ f rest h,
    fun lf h1 h2 => Stream.streamCycle_chunk_last _ lf h1 h2,
    fun h => ?_⟩
  have hlin := Stream.LInv_runEvents (Stream.LInv_init 60) evs
  exact hlin.mp (Stream.streamCycle_placeholder h).2

/-- C8, witness: after one upload and one worker round the cycle serves
the queued annotated frame; after additionally draining it the cycle
serves the fallback frame; on a fresh buffer the placeholder is served
and indeed nothing has been processed. -/
theorem C8_stream_always_yields_witness :
    (Stream.streamCycle (Stream.runEvents (Stream.Buffer.init 60)
        [.add 7, .work (.ok [])])).2 = .jpeg (.drawn 7 []) ∧
    (Stream.streamCycle (Stream.runEvents (Stream.Buffer.init 60)
        [.add 7, .work (.ok []), .cycle])).2 = .jpeg (.drawn 7 []) ∧
    (Stream.runEvents (Stream.Buffer.init 60) []).processedG = 0 :=
  ⟨(C8_stream_always_yields [.add 7, .work (.ok [])] 0).2.1 (.drawn 7 []) [] (by decide),
   (C8_stream_always_yields [.add 7, .work (.ok []), .cycle] 0).2.2.1 (.drawn 7 []) (by decide) (by decide),
   (C8_stream_always_yields [] 0).2.2.2 (by decide)⟩

/-- C9: when the module is served by an ASGI server the name `asyncio`
is unbound (its import sits inside the `__main__` block), so every
websocket stream session raises `NameError` at the pacing sleep of its
first loop iteration; the session handler catches it and the session
terminates having sent at most one frame. -/
theorem C9_asgi_session_dies (p : HQ.Processor) (fuel : Nat) (h : 0 < fuel) :
    (HQ.wsSessionLoop false p 0 fuel).2.1 ≤ 1 ∧
    (HQ.wsSessionLoop false p 0 fuel).2.2 = some HQ.PyExc.nameErrorAsyncio := by
  cases fuel with
  | zero => exact absurd h (by simp)
  | succ k =>
      unfold HQ.wsSessionLoop
      cases hw : HQ.wsIter p 0 with
      | mk p1 c1 =>
          have hc : c1 ≤ 1 := by
            unfold HQ.wsIter at hw
            split at hw
            · injection hw with e3 e4
              omega
            · injection hw with e3 e4
              omega
          exact ⟨hc, rfl⟩

/-- C9, witness: a fresh processor with one iteration of fuel — the
session dies with the caught `NameError` having sent no frame. -/
theorem C9_asgi_session_dies_witness :
    0 < 1 ∧
    (HQ.wsSessionLoop false (HQ.Processor.init 90) 0 1).2.1 ≤ 1 ∧
    (HQ.wsSessionLoop false (HQ.Processor.init 90) 0 1).2.2 =
      some HQ.PyExc.nameErrorAsyncio :=
  ⟨by decide,
   (C9_asgi_session_dies (HQ.Processor.init 90) 1 (by decide)).1,
   (C9_asgi_session_dies (HQ.Processor.init 90) 1 (by decide)).2⟩

/-- C10: with the model unavailable, `server.py:run_detection` returns
exactly the single hard-coded fallback detection (x 50, y 50, w 200,
h 150, class "defect", confidence 0.9) with note "fallback", while
`udp_server.py:run_detection` returns an empty detection list; both
always return the true width and height of the input image. -/
theorem C10_fallback_divergence (o : DetOutcome) (w h : Nat) :
    RespServer.run_detection .noModel w h =
      { detections := [{ x := 50, y := 50, w := 200, h := 150,
                         cls := "defect", conf := 9 / 10 }]
        w := w, h := h, note := some "fallback", error := none } ∧
    Udp.run_detection .noModel w h =
      { detections := [], w := w, h := h, error := none } ∧
    (RespServer.run_detection o w h).w = w ∧
    (RespServer.run_detection o w h).h = h ∧
    (Udp.run_detection o w h).w = w ∧
    (Udp.run_detection o w h).h = h := by
  refine ⟨rfl, rfl, ?_, ?_, ?_, ?_⟩ <;> cases o <;> rfl
